import Mathlib

/-!
Verification development for the bmpiokit repository (src/unicode.c and
src/bmpiokit.c), a tool that enumerates Black Magic Probe USB devices and
decodes their string descriptors.

The shallow embedding below translates the C sources into Lean:

* machine integers become `Nat`, with `% 2 ^ 32` written out where the C
  unsigned arithmetic can wrap;
* a `(pointer, length)` buffer of `char16_t` / `char` becomes a `List Nat`
  whose elements are the stored values (code units `< 2 ^ 16`, bytes
  `< 2 ^ 8`), and a `for` loop walking the buffer by offset becomes
  structural recursion on that list;
* a `char *` result that can be `NULL` becomes an `Option (List Nat)`,
  where the byte list is the full allocated contents of the returned
  string, terminating NUL byte included;
* the external IOKit control-transfer capability (`DeviceRequestTO`)
  becomes a function from a request record to a result code plus the
  bytes the device deposits in the caller's buffer.
-/

/-! ## Transcoder: src/unicode.c -/

/-- Embedding of `countUnits` (src/unicode.c lines 18-53).  The C function
walks the code units by offset, using `safeIndex` (lines 11-16) which
yields `0xffff` for a read at or past `length`; with the list standing for
the `length`-unit buffer, the only such read is the one for the unit
following a trailing high-classified unit, which is the `[]` branch of the
inner match (`0xffff &&& 0xfe00 = 0xfe00 ≠ 0xdc00`, so the C returns 0
there).  The C signals failure by returning 0 and aborting the walk; here
the abort is `none`, and `countUnitsC` collapses `none` to 0 exactly as
the C caller sees it.  Note the source masks with `0xfe00`, not `0xfc00`:
only `0xd800-0xd9ff` are classified as high surrogates and only
`0xdc00-0xddff` as low surrogates. -/
def countUnits : List Nat → Option Nat
  | [] => some 0
  | uintA :: rest =>
    -- Check if it's a valid high surrogate (start of a surrogate pair)
    if uintA &&& 0xfe00 = 0xd800 then
      match rest with
      | [] => none
      | uintB :: rest2 =>
        -- Validate that it's a valid low surrogate, and if not bail
        if uintB &&& 0xfe00 = 0xdc00 then
          -- The character needs 3 additional bytes (plus the 1 added for every unit)
          match countUnits rest2 with
          | none => none
          | some count => some (count + 4)
        else none
    -- Check if it's a low surrogate (unpaired) and if so, bail
    else if uintA &&& 0xfe00 = 0xdc00 then none
    else
      match countUnits rest with
      | none => none
      | some count =>
        -- One byte per unit, another if above 0x7f, a third if above 0x7ff
        some (count + ((if 0x7f < uintA then 1 else 0) + (if 0x7ff < uintA then 1 else 0) + 1))

/-- Return value of the C `countUnits`: failure collapses to 0, which the
caller `utf8FromUtf16` cannot tell apart from the empty-input count. -/
def countUnitsC (string : List Nat) : Nat :=
  (countUnits string).getD 0

/-- Embedding of the encode loop of `utf8FromUtf16` (src/unicode.c lines
66-106).  Each iteration writes 1-4 bytes at `outputOffset` and advances
`outputOffset` by the same amount, so the bytes written are exactly this
list in order.  The read of the pair's low unit (line 76) goes through
`safeIndex` bounded by `utf8Length`; `countUnits_length_le` below shows
that on every input on which `utf8FromUtf16` reaches this loop the bound
is at least the unit count, so the read is in bounds whenever the next
unit exists, and the `[]` branch mirrors the out-of-bounds sentinel read
(`lower = 0xffff &&& 0x3ff`), which is unreachable from `utf8FromUtf16`
because `countUnits` already failed on such input.  The `(uint8_t)` casts
of the C truncate to 8 bits before a mask that only keeps bits below 8,
so they are dropped. -/
def utf8EncodeLoop : List Nat → List Nat
  | [] => []
  | uintA :: rest =>
    -- Handle if it's a surrogate pair (already validated whole in countUnits())
    if uintA &&& 0xfe00 = 0xd800 then
      -- Recover the upper 10 (11) bits from the first surrogate in the pair
      let upper := (uintA &&& 0x3ff) + 0x40
      match rest with
      | [] =>
        let lower := 0xffff &&& 0x3ff
        [0xf0 ||| ((upper >>> 8) &&& 0x07), 0x80 ||| ((upper >>> 2) &&& 0x3f),
         0x80 ||| ((upper <<< 4) &&& 0x30) ||| ((lower >>> 6) &&& 0x0f),
         0x80 ||| (lower &&& 0x3f)]
      | uintB :: rest2 =>
        -- Recover the lower 10 bits from the second surrogate of the pair
        let lower := uintB &&& 0x3ff
        -- Now encode the entire thing as a 4 byte sequence
        (0xf0 ||| ((upper >>> 8) &&& 0x07)) :: (0x80 ||| ((upper >>> 2) &&& 0x3f)) ::
        (0x80 ||| ((upper <<< 4) &&& 0x30) ||| ((lower >>> 6) &&& 0x0f)) ::
        (0x80 ||| (lower &&& 0x3f)) :: utf8EncodeLoop rest2
    -- It's a simple character: if it's able to fit in one byte, then do that
    else if uintA ≤ 0x7f then
      uintA :: utf8EncodeLoop rest
    -- Otherwise, if it can fit in 2 bytes, then encode it accordingly
    else if uintA ≤ 0x7ff then
      (0xc0 ||| ((uintA >>> 6) &&& 0x1f)) :: (0x80 ||| (uintA &&& 0x3f)) :: utf8EncodeLoop rest
    -- Otherwise it has to be a 3 byte sequence
    else
      (0xe0 ||| ((uintA >>> 12) &&& 0x0f)) :: (0x80 ||| ((uintA >>> 6) &&& 0x3f)) ::
      (0x80 ||| (uintA &&& 0x3f)) :: utf8EncodeLoop rest

/-- Embedding of `utf8FromUtf16` (src/unicode.c lines 55-108), the list
standing for the `utf16Length`-unit buffer.  The internal `malloc` is
assumed to succeed (an allocation failure there also yields `NULL`; the
resolver-level claims that mention allocation model the `calloc` site in
`requestStringFromDevice`, the one the specification's error taxonomy
names). -/
def utf8FromUtf16 (utf16String : List Nat) : Option (List Nat) :=
  -- Figure out how long the UTF-8 string equivalent of the UTF-16 string is exactly
  let utf8Length := countUnitsC utf16String
  if utf8Length = 0 then none
  else some (utf8EncodeLoop utf16String)

/-- Spec name for the Transcoder entry point (spec section 6): the
`decodeUtf16` of the claims is exactly `utf8FromUtf16` applied to the
whole unit sequence. -/
def decodeUtf16 (units : List Nat) : Option (List Nat) :=
  utf8FromUtf16 units

/-! ### Surrogate-classification arithmetic -/

/-- Mask identity: `&&& 0xfe00` keeps bits 9-15. -/
theorem land_fe00 (u : Nat) : u &&& 0xfe00 = u / 512 % 128 * 512 := by
  have h1 : (0xfe00 : Nat) = (2 ^ 7 - 1) <<< 9 := by
    rw [Nat.shiftLeft_eq]
    norm_num
  have h2 : u / 512 % 128 * 512 = ((u >>> 9) &&& (2 ^ 7 - 1)) <<< 9 := by
    rw [Nat.and_pow_two_sub_one_eq_mod, Nat.shiftLeft_eq, Nat.shiftRight_eq_div_pow]
  rw [h1, h2]
  apply Nat.eq_of_testBit_eq
  intro i
  simp only [Nat.testBit_land, Nat.testBit_shiftLeft, Nat.testBit_shiftRight,
    Nat.testBit_two_pow_sub_one]
  rcases Nat.lt_or_ge i 9 with h | h
  · simp [Nat.not_le.mpr h]
  · have h9 : 9 + (i - 9) = i := by omega
    simp [h, h9, Bool.and_comm]

/-- Characterization of the source's high-surrogate test: with the
`0xfe00` mask it accepts exactly `0xd800-0xd9ff` (for 16-bit units), not
the full high-surrogate range `0xd800-0xdbff`. -/
theorem highSurrogateTest_iff (u : Nat) (hu : u < 65536) :
    u &&& 0xfe00 = 0xd800 ↔ 0xd800 ≤ u ∧ u < 0xda00 := by
  rw [land_fe00]
  omega

/-- Characterization of the source's low-surrogate test: with the `0xfe00`
mask it accepts exactly `0xdc00-0xddff` (for 16-bit units), not the full
low-surrogate range `0xdc00-0xdfff`. -/
theorem lowSurrogateTest_iff (u : Nat) (hu : u < 65536) :
    u &&& 0xfe00 = 0xdc00 ↔ 0xdc00 ≤ u ∧ u < 0xde00 := by
  rw [land_fe00]
  omega

/-! ### Structural lemmas about the two passes -/

/-- Success of the size pass bounds the byte count from below by the unit
count: every unit contributes at least one byte (a pair contributes 4 for
its 2 units).  This also justifies dropping the `utf8Length` bound of the
low-unit read in `utf8EncodeLoop`: the bound never truncates a read at an
index below the unit count. -/
theorem countUnits_length_le : ∀ {s : List Nat} {n : Nat}, countUnits s = some n → s.length ≤ n := by
  intro s
  induction s using countUnits.induct
  case case1 =>
    intro n h
    exact Nat.zero_le n
  case case2 uintA h1 =>
    intro n h
    simp [countUnits, h1] at h
  case case3 uintA h1 uintB rest2 h2 heq ih =>
    intro n h
    simp [countUnits, h1, h2, heq] at h
  case case4 uintA h1 uintB rest2 h2 count heq ih =>
    intro n h
    simp only [countUnits, h1, h2, heq, if_pos, if_true, Option.some.injEq] at h
    have := ih heq
    simp only [List.length_cons]
    omega
  case case5 uintA h1 uintB rest2 h2 =>
    intro n h
    simp [countUnits, h1, h2] at h
  case case6 uintA rest h1 h2 =>
    intro n h
    rw [countUnits.eq_def] at h
    simp [h1, h2] at h
  case case7 uintA rest h1 h2 heq ih =>
    intro n h
    rw [countUnits.eq_def] at h
    simp [h1, h2, heq] at h
  case case8 uintA rest h1 h2 count heq ih =>
    intro n h
    rw [countUnits.eq_def] at h
    simp only [h1, h2, heq, if_neg, if_false, ite_false, Option.some.injEq] at h
    have := ih heq
    simp only [List.length_cons]
    omega

/-- Agreement of the two passes: when the size pass succeeds, the encode
pass emits exactly that many bytes. -/
theorem utf8EncodeLoop_length : ∀ {s : List Nat} {n : Nat}, countUnits s = some n →
    (utf8EncodeLoop s).length = n := by
  intro s
  induction s using countUnits.induct
  case case1 =>
    intro n h
    simp only [countUnits, Option.some.injEq] at h
    simp [utf8EncodeLoop, ← h]
  case case2 uintA h1 =>
    intro n h
    simp [countUnits, h1] at h
  case case3 uintA h1 uintB rest2 h2 heq ih =>
    intro n h
    simp [countUnits, h1, h2, heq] at h
  case case4 uintA h1 uintB rest2 h2 count heq ih =>
    intro n h
    simp only [countUnits, h1, h2, heq, if_pos, if_true, Option.some.injEq] at h
    have := ih heq
    simp only [utf8EncodeLoop, h1, if_pos, if_true, List.length_cons]
    omega
  case case5 uintA h1 uintB rest2 h2 =>
    intro n h
    simp [countUnits, h1, h2] at h
  case case6 uintA rest h1 h2 =>
    intro n h
    rw [countUnits.eq_def] at h
    simp [h1, h2] at h
  case case7 uintA rest h1 h2 heq ih =>
    intro n h
    rw [countUnits.eq_def] at h
    simp [h1, h2, heq] at h
  case case8 uintA rest h1 h2 count heq ih =>
    intro n h
    rw [countUnits.eq_def] at h
    simp only [h1, h2, heq, if_neg, if_false, ite_false, Option.some.injEq] at h
    have hrest := ih heq
    rw [utf8EncodeLoop.eq_def]
    by_cases ha : uintA ≤ 0x7f
    · have h7 : ¬(0x7f < uintA) := by omega
      have h7f : ¬(0x7ff < uintA) := by omega
      simp only [h1, ha, h7, h7f, if_neg, if_false, ite_false, if_pos, if_true, ite_true,
        List.length_cons] at h ⊢
      omega
    · by_cases hb : uintA ≤ 0x7ff
      · have h7 : 0x7f < uintA := by omega
        have h7f : ¬(0x7ff < uintA) := by omega
        simp only [h1, ha, hb, h7, h7f, if_neg, if_false, ite_false, if_pos, if_true, ite_true,
          List.length_cons] at h ⊢
        omega
      · have h7 : 0x7f < uintA := by omega
        have h7f : 0x7ff < uintA := by omega
        simp only [h1, ha, hb, h7, h7f, if_neg, if_false, ite_false, if_pos, if_true, ite_true,
          List.length_cons] at h ⊢
        omega

/-- Helper: consing onto a non-empty list keeps its last element. -/
theorem getLast_cons_of_ne_nil {a : Nat} {l : List Nat} (h : l ≠ []) :
    (a :: l).getLast? = l.getLast? := by
  cases l with
  | nil => exact absurd rfl h
  | cons b t => exact List.getLast?_cons_cons

/-- Single-step unfolding of the encode loop at an accepted surrogate pair. -/
theorem utf8EncodeLoop_cons_pair (a b : Nat) (l : List Nat) (h : a &&& 0xfe00 = 0xd800) :
    utf8EncodeLoop (a :: b :: l) =
      (0xf0 ||| ((((a &&& 0x3ff) + 0x40) >>> 8) &&& 0x07)) ::
      (0x80 ||| ((((a &&& 0x3ff) + 0x40) >>> 2) &&& 0x3f)) ::
      (0x80 ||| ((((a &&& 0x3ff) + 0x40) <<< 4) &&& 0x30) ||| (((b &&& 0x3ff) >>> 6) &&& 0x0f)) ::
      (0x80 ||| ((b &&& 0x3ff) &&& 0x3f)) :: utf8EncodeLoop l := by
  simp only [utf8EncodeLoop, h, if_pos, if_true]

/-- Single-step unfolding of the encode loop at a one-byte unit. -/
theorem utf8EncodeLoop_cons_one (a : Nat) (l : List Nat) (h1 : ¬(a &&& 0xfe00 = 0xd800))
    (h2 : a ≤ 0x7f) : utf8EncodeLoop (a :: l) = a :: utf8EncodeLoop l := by
  cases l with
  | nil => simp [utf8EncodeLoop, h1, h2]
  | cons b t => simp only [utf8EncodeLoop, h1, h2, if_neg, if_false, ite_false, if_pos, if_true]

/-- Single-step unfolding of the encode loop at a two-byte unit. -/
theorem utf8EncodeLoop_cons_two (a : Nat) (l : List Nat) (h1 : ¬(a &&& 0xfe00 = 0xd800))
    (h2 : ¬(a ≤ 0x7f)) (h3 : a ≤ 0x7ff) :
    utf8EncodeLoop (a :: l) =
      (0xc0 ||| ((a >>> 6) &&& 0x1f)) :: (0x80 ||| (a &&& 0x3f)) :: utf8EncodeLoop l := by
  cases l with
  | nil => simp [utf8EncodeLoop, h1, h2, h3]
  | cons b t =>
    simp only [utf8EncodeLoop, h1, h2, h3, if_neg, if_false, ite_false, if_pos, if_true]

/-- Single-step unfolding of the encode loop at a three-byte unit. -/
theorem utf8EncodeLoop_cons_three (a : Nat) (l : List Nat) (h1 : ¬(a &&& 0xfe00 = 0xd800))
    (h2 : ¬(a ≤ 0x7f)) (h3 : ¬(a ≤ 0x7ff)) :
    utf8EncodeLoop (a :: l) =
      (0xe0 ||| ((a >>> 12) &&& 0x0f)) :: (0x80 ||| ((a >>> 6) &&& 0x3f)) ::
      (0x80 ||| (a &&& 0x3f)) :: utf8EncodeLoop l := by
  cases l with
  | nil => simp [utf8EncodeLoop, h1, h2, h3]
  | cons b t =>
    simp only [utf8EncodeLoop, h1, h2, h3, if_neg, if_false, ite_false, if_pos, if_true]

/-- Encoding preserves a trailing NUL unit: on any input the size pass
accepts whose final unit is 0, the encode pass emits a byte list whose
final byte is 0 (the final unit cannot be consumed as the low half of a
pair, because the low-surrogate test fails on 0). -/
theorem utf8EncodeLoop_getLast : ∀ {s : List Nat} {n : Nat}, countUnits s = some n →
    s.getLast? = some 0 → (utf8EncodeLoop s).getLast? = some 0 := by
  intro s
  induction s using countUnits.induct
  case case1 =>
    intro n h hlast
    simp at hlast
  case case2 uintA h1 =>
    intro n h hlast
    simp [countUnits, h1] at h
  case case3 uintA h1 uintB rest2 h2 heq ih =>
    intro n h hlast
    simp [countUnits, h1, h2, heq] at h
  case case4 uintA h1 uintB rest2 h2 count heq ih =>
    intro n h hlast
    rcases rest2 with _ | ⟨c, rest3⟩
    · have hB : uintB = 0 := by simpa using hlast
      rw [hB] at h2
      simp at h2
    · rw [List.getLast?_cons_cons, List.getLast?_cons_cons] at hlast
      have htail := ih heq hlast
      have htne : utf8EncodeLoop (c :: rest3) ≠ [] := by
        intro hh
        rw [hh] at htail
        simp at htail
      rw [utf8EncodeLoop_cons_pair uintA uintB (c :: rest3) h1]
      rw [List.getLast?_cons_cons, List.getLast?_cons_cons, List.getLast?_cons_cons,
        getLast_cons_of_ne_nil htne]
      exact htail
  case case5 uintA h1 uintB rest2 h2 =>
    intro n h hlast
    simp [countUnits, h1, h2] at h
  case case6 uintA rest h1 h2 =>
    intro n h hlast
    rw [countUnits.eq_def] at h
    simp [h1, h2] at h
  case case7 uintA rest h1 h2 heq ih =>
    intro n h hlast
    rw [countUnits.eq_def] at h
    simp [h1, h2, heq] at h
  case case8 uintA rest h1 h2 count heq ih =>
    intro n h hlast
    rcases rest with _ | ⟨b, rest3⟩
    · have hA : uintA = 0 := by simpa using hlast
      subst hA
      decide
    · rw [List.getLast?_cons_cons] at hlast
      have htail := ih heq hlast
      have htne : utf8EncodeLoop (b :: rest3) ≠ [] := by
        intro hh
        rw [hh] at htail
        simp at htail
      by_cases ha : uintA ≤ 0x7f
      · rw [utf8EncodeLoop_cons_one uintA (b :: rest3) h1 ha, getLast_cons_of_ne_nil htne]
        exact htail
      · by_cases hb : uintA ≤ 0x7ff
        · rw [utf8EncodeLoop_cons_two uintA (b :: rest3) h1 ha hb, List.getLast?_cons_cons,
            getLast_cons_of_ne_nil htne]
          exact htail
        · rw [utf8EncodeLoop_cons_three uintA (b :: rest3) h1 ha hb, List.getLast?_cons_cons,
            List.getLast?_cons_cons, getLast_cons_of_ne_nil htne]
          exact htail

/-- Single-step unfolding of the size pass at a unit that passes neither
surrogate test. -/
theorem countUnits_cons_scalar (a : Nat) (l : List Nat) (h1 : ¬(a &&& 0xfe00 = 0xd800))
    (h2 : ¬(a &&& 0xfe00 = 0xdc00)) :
    countUnits (a :: l) =
      match countUnits l with
      | none => none
      | some count =>
        some (count + ((if 0x7f < a then 1 else 0) + (if 0x7ff < a then 1 else 0) + 1)) := by
  cases l with
  | nil => simp [countUnits, h1, h2]
  | cons b t => simp only [countUnits, h1, h2, if_neg, if_false, ite_false]

/-! ### Behaviour on surrogate-free input (spec-side reference encoding) -/

/-- Modelled from the spec: the standard UTF-8 encoding of one scalar
value in `0x0000-0xffff` outside the surrogate ranges — 1 byte, value
unchanged, when at most `0x7f`; 2 bytes `110xxxxx 10xxxxxx` when at most
`0x7ff`; else 3 bytes `1110xxxx 10xxxxxx 10xxxxxx` (spec section 4.1).
This is the claim-side reference the source encoder is compared with. -/
def specUtf8OfScalar (u : Nat) : List Nat :=
  if u ≤ 0x7f then [u]
  else if u ≤ 0x7ff then [0xc0 ||| (u >>> 6), 0x80 ||| (u &&& 0x3f)]
  else [0xe0 ||| (u >>> 12), 0x80 ||| ((u >>> 6) &&& 0x3f), 0x80 ||| (u &&& 0x3f)]

/-- Mask identity used to align the source's two-byte leading byte with
the standard form. -/
theorem shiftRight6_and_mask (a : Nat) (h : a ≤ 0x7ff) : (a >>> 6) &&& 0x1f = a >>> 6 := by
  rw [show (0x1f : Nat) = 2 ^ 5 - 1 by norm_num, Nat.and_pow_two_sub_one_eq_mod,
    Nat.shiftRight_eq_div_pow]
  omega

/-- Mask identity used to align the source's three-byte leading byte with
the standard form. -/
theorem shiftRight12_and_mask (a : Nat) (h : a < 65536) : (a >>> 12) &&& 0x0f = a >>> 12 := by
  rw [show (0x0f : Nat) = 2 ^ 4 - 1 by norm_num, Nat.and_pow_two_sub_one_eq_mod,
    Nat.shiftRight_eq_div_pow]
  omega

/-- Size pass on surrogate-free 16-bit input always succeeds. -/
theorem countUnits_nonSurrogate : ∀ {s : List Nat},
    (∀ u ∈ s, u < 65536 ∧ (u < 0xd800 ∨ 0xdfff < u)) → ∃ n, countUnits s = some n := by
  intro s
  induction s with
  | nil => exact fun _ => ⟨0, rfl⟩
  | cons a rest ih =>
    intro h
    have ha := h a (by simp)
    have hnh : ¬(a &&& 0xfe00 = 0xd800) := by
      rw [highSurrogateTest_iff a ha.1]
      omega
    have hnl : ¬(a &&& 0xfe00 = 0xdc00) := by
      rw [lowSurrogateTest_iff a ha.1]
      omega
    obtain ⟨n, hn⟩ := ih (fun u hu => h u (by simp [hu]))
    refine ⟨n + ((if 0x7f < a then 1 else 0) + (if 0x7ff < a then 1 else 0) + 1), ?_⟩
    rw [countUnits_cons_scalar a rest hnh hnl, hn]

/-- Encode pass on surrogate-free 16-bit input produces exactly the
standard per-scalar UTF-8 bytes, concatenated. -/
theorem utf8EncodeLoop_nonSurrogate : ∀ {s : List Nat},
    (∀ u ∈ s, u < 65536 ∧ (u < 0xd800 ∨ 0xdfff < u)) →
    utf8EncodeLoop s = s.flatMap specUtf8OfScalar := by
  intro s
  induction s with
  | nil => exact fun _ => rfl
  | cons a rest ih =>
    intro h
    have ha := h a (by simp)
    have hnh : ¬(a &&& 0xfe00 = 0xd800) := by
      rw [highSurrogateTest_iff a ha.1]
      omega
    have hrest := ih (fun u hu => h u (by simp [hu]))
    by_cases h7 : a ≤ 0x7f
    · rw [utf8EncodeLoop_cons_one a rest hnh h7, hrest]
      simp [specUtf8OfScalar, h7]
    · by_cases h7f : a ≤ 0x7ff
      · rw [utf8EncodeLoop_cons_two a rest hnh h7 h7f, hrest,
          shiftRight6_and_mask a h7f]
        simp [specUtf8OfScalar, h7, h7f]
      · rw [utf8EncodeLoop_cons_three a rest hnh h7 h7f, hrest,
          shiftRight12_and_mask a ha.1]
        simp [specUtf8OfScalar, h7, h7f]

/-! ## Claim theorems for the Transcoder -/

/-- C1 (code bug evidence): the source rejects the specification's worked
example, the surrogate pair for U+1F600.  Because `countUnits` checks the
low surrogate with `(uintB & 0xfe00) == 0xdc00` (src/unicode.c line 32),
the valid low surrogate `0xde00` fails the test
(`0xde00 &&& 0xfe00 = 0xde00`) and the whole decode returns `NULL`
instead of the claimed 4-byte encoding of `0x1f600`. -/
theorem decode_surrogate_pair_bug :
    decodeUtf16 [0xd83d, 0xde00] = none ∧
    decodeUtf16 [0xd83d, 0xde00] ≠ some [0xf0, 0x9f, 0x98, 0x80] := by
  decide

/-- C3 (code bug evidence): the claim's two listed examples do fail as
stated, but the universal statement is false: `0xda00` is a unit in the
high-surrogate range `0xd800-0xdbff` not followed by any low surrogate,
yet the source accepts it — its high-surrogate test
`(uintA & 0xfe00) == 0xd800` (src/unicode.c line 27) misses `0xda00`
(`0xda00 &&& 0xfe00 = 0xda00`), so the unpaired surrogate is encoded as
the ordinary 3-byte sequence `[0xed, 0xa8, 0x80]` instead of failing. -/
theorem decode_unpaired_surrogate_bug :
    decodeUtf16 [0xda00] = some [0xed, 0xa8, 0x80] ∧
    decodeUtf16 [0xd83d] = none ∧
    decodeUtf16 [0xdc00] = none := by
  decide

/-- C6: on every non-empty sequence of 16-bit units none of which lies in
the surrogate ranges `0xd800-0xdfff`, `decodeUtf16` succeeds and encodes
each unit by the standard UTF-8 size rules (`specUtf8OfScalar`),
concatenated in order. -/
theorem decode_nonSurrogate_correct (s : List Nat) (hne : s ≠ [])
    (h : ∀ u ∈ s, u < 65536 ∧ (u < 0xd800 ∨ 0xdfff < u)) :
    decodeUtf16 s = some (s.flatMap specUtf8OfScalar) := by
  obtain ⟨n, hn⟩ := countUnits_nonSurrogate h
  have hlen := countUnits_length_le hn
  have hs1 : 1 ≤ s.length := by
    cases s with
    | nil => exact absurd rfl hne
    | cons a t => simp
  have hcc : countUnitsC s = n := by simp [countUnitsC, hn]
  simp only [decodeUtf16, utf8FromUtf16, hcc]
  rw [if_neg (by omega), utf8EncodeLoop_nonSurrogate h]

/-- Witness for C6 at the claim's two concrete examples. -/
theorem decode_nonSurrogate_correct_witness :
    decodeUtf16 [0xe9] = some [0xc3, 0xa9] ∧
    decodeUtf16 [0x20ac] = some [0xe2, 0x82, 0xac] := by
  constructor
  · rw [decode_nonSurrogate_correct [0xe9] (by decide) (by decide)]
    decide
  · rw [decode_nonSurrogate_correct [0x20ac] (by decide) (by decide)]
    decide

/-- C7: whenever the decode succeeds, the encode pass emits exactly
`countUnits` bytes — the allocated output buffer (of that size) is filled
completely and never overrun. -/
theorem encode_fills_buffer_exactly (s : List Nat) (bytes : List Nat)
    (h : utf8FromUtf16 s = some bytes) :
    bytes.length = countUnitsC s ∧ countUnitsC s ≠ 0 := by
  by_cases h0 : countUnitsC s = 0
  · simp [utf8FromUtf16, h0] at h
  · simp only [utf8FromUtf16, h0, if_neg, if_false, ite_false, Option.some.injEq] at h
    obtain ⟨n, hn⟩ : ∃ n, countUnits s = some n := by
      cases hc : countUnits s with
      | none => simp [countUnitsC, hc] at h0
      | some n => exact ⟨n, rfl⟩
    have hlen := utf8EncodeLoop_length hn
    refine ⟨?_, h0⟩
    rw [← h, hlen]
    simp [countUnitsC, hn]

/-- Witness for C7 at a concrete successful decode. -/
theorem encode_fills_buffer_exactly_witness :
    utf8FromUtf16 [0x41] = some [0x41] ∧
    ([0x41] : List Nat).length = countUnitsC [0x41] ∧ countUnitsC [0x41] ≠ 0 :=
  ⟨by decide, encode_fills_buffer_exactly [0x41] [0x41] (by decide)⟩

/-! ## Descriptor protocol and resolver: src/bmpiokit.c -/

/-- IOKit result code `kIOReturnSuccess`. -/
def kIOReturnSuccess : Nat := 0

/-- IOKit result code `kIOReturnError` (`0xe00002bc`). -/
def kIOReturnError : Nat := 0xe00002bc

/-- IOKit result code `kIOReturnBadArgument` (`0xe00002c2`). -/
def kIOReturnBadArgument : Nat := 0xe00002c2

/-- USB string-descriptor type tag `kUSBStringDesc`. -/
def kUSBStringDesc : Nat := 3

/-- Setup packet of a control transfer, as filled in by
`requestStringLength` and `requestStringDescriptor` (the timeout fields,
constant 20/100 in both, carry no behaviour in this model).
`bmRequestType` is `USBmakebmRequestType(kUSBIn, kUSBStandard,
kUSBDevice) = 0x80` and `bRequest` is `kUSBRqGetDescriptor = 6`. -/
structure USBRequest where
  bmRequestType : Nat
  bRequest : Nat
  wValue : Nat
  wIndex : Nat
  wLength : Nat
deriving DecidableEq

/-- External control-transfer capability (`DeviceRequestTO` bound to one
device): a request yields an IOKit result code and the bytes the device
deposits in the caller's buffer (at most `wLength` of them take effect,
see `dataByte`). -/
structure USBDevice where
  respond : USBRequest → Nat × List Nat

/-- Byte `i` of a zero-initialised transfer buffer after a transfer of at
most `wLength` bytes: bytes past `wLength` stay 0, a short response
leaves later bytes 0, and the wire carries bytes (hence `% 256`). -/
def dataByte (resp : List Nat) (wLength i : Nat) : Nat :=
  if i < wLength then resp.getD i 0 % 256 else 0

/-- Setup packet built by `requestStringLength` (src/bmpiokit.c lines
120-130): 2-byte read of the descriptor header for `index` in language
`0x0409`. -/
def probeRequest (index : Nat) : USBRequest :=
  ⟨0x80, 6, (kUSBStringDesc <<< 8) ||| index, 0x0409, 2⟩

/-- Embedding of `requestStringLength` (src/bmpiokit.c lines 116-141),
returning the computed length together with the transfers issued.  The
header starts zeroed (`{0U}`), so its two fields read back through
`dataByte`.  The C computes `(header.bLength - 2U) / 2U` in 32-bit
unsigned arithmetic on a `uint8_t` value: the subtraction is modelled as
`(bLength + 0xfffffffe) % 2 ^ 32`, which wraps for `bLength < 2`. -/
def requestStringLength (usbDevice : USBDevice) (index : Nat) : Nat × List USBRequest :=
  let request := probeRequest index
  let response := usbDevice.respond request
  let bLength := dataByte response.2 2 0
  let bDescriptorType := dataByte response.2 2 1
  -- Check that the transfer was successful and that we got a string descriptor back
  if response.1 ≠ kIOReturnSuccess ∨ bDescriptorType ≠ kUSBStringDesc then (0, [request])
  -- Convert the length field from a length in bytes to a length in UTF-16 code units
  else (((bLength + 0xfffffffe) % 0x100000000) / 2, [request])

/-- Setup packet built by `requestStringDescriptor` (src/bmpiokit.c lines
149-160): `length` code units plus the 2-byte header. -/
def fetchRequest (index length : Nat) : USBRequest :=
  ⟨0x80, 6, (kUSBStringDesc <<< 8) ||| index, 0x0409, length * 2 + 2⟩

/-- Byte `k` of the little-endian memory image of a `char16_t` buffer
holding the unit values `string`. -/
def byteOfUnits (string : List Nat) (k : Nat) : Nat :=
  if k % 2 = 0 then string.getD (k / 2) 0 % 256 else string.getD (k / 2) 0 / 256 % 256

/-- Model of `memcpy(string, data + 2, validBytes)` (src/bmpiokit.c line
171) on a `char16_t` buffer: the first `validBytes` bytes of the buffer's
little-endian image are replaced by `data[2..]`, the remaining bytes keep
their previous value, and each unit is reassembled as
`low + 256 * high`. -/
def memcpyUnits (string : List Nat) (data : Nat → Nat) (validBytes : Nat) : List Nat :=
  (List.range string.length).map fun j =>
    (if 2 * j < validBytes then data (2 + 2 * j) else byteOfUnits string (2 * j)) +
    256 * (if 2 * j + 1 < validBytes then data (2 + 2 * j + 1) else byteOfUnits string (2 * j + 1))

/-- Outcome of `requestStringDescriptor`: the returned `IOReturn`, the
caller's unit buffer after the call, and the transfers issued. -/
structure FetchResult where
  ret : Nat
  string : List Nat
  transfers : List USBRequest
deriving DecidableEq

/-- Embedding of `requestStringDescriptor` (src/bmpiokit.c lines
143-173).  The 256-byte `data` buffer is zero-initialised and the
transfer writes at most `wLength = length * 2 + 2 ≤ 256` bytes of the
response into it; `validBytes = min(data[0], length * 2)`. -/
def requestStringDescriptor (usbDevice : USBDevice) (index : Nat) (string : List Nat)
    (length : Nat) : FetchResult :=
  -- Check that the string length isn't too long, and bail if it is
  if length > 127 then ⟨kIOReturnBadArgument, string, []⟩
  else
    let request := fetchRequest index length
    let response := usbDevice.respond request
    let data : Nat → Nat := fun i => dataByte response.2 (length * 2 + 2) i
    if response.1 ≠ kIOReturnSuccess then ⟨response.1, string, [request]⟩
    else if data 1 ≠ kUSBStringDesc then ⟨kIOReturnError, string, [request]⟩
    else ⟨kIOReturnSuccess, memcpyUnits string data (min (data 0) (length * 2)), [request]⟩

/-- Byte content of `strdup("---")`: the three dashes and the copied NUL
terminator. -/
def placeholder : List Nat := [0x2d, 0x2d, 0x2d, 0x00]

/-- Outcome of `requestStringFromDevice`: the returned string bytes
(`none` models returning `NULL`) and the transfers issued. -/
structure ResolveResult where
  result : Option (List Nat)
  transfers : List USBRequest
deriving DecidableEq

/-- Embedding of `requestStringFromDevice` (src/bmpiokit.c lines
175-213).  `callocOk` models whether the `calloc` of the
`length + 1`-unit scratch buffer (line 191) succeeds; the `strdup` calls
and the transcoder's internal `malloc` are assumed to succeed.  Note the
final branch returns `utf8FromUtf16` unchanged (line 212): a transcoder
failure propagates `NULL` to the caller, it is not translated to the
placeholder. -/
def requestStringFromDevice (usbDevice : USBDevice) (index : Nat) (callocOk : Bool) :
    ResolveResult :=
  -- If the string index is invalid, translate it to a known unknown string
  if index = 0 then ⟨some placeholder, []⟩
  else
    -- Otherwise, ask the device how long the string actually is
    let probe := requestStringLength usbDevice index
    if probe.1 = 0 then ⟨some placeholder, probe.2⟩
    else if callocOk = false then ⟨none, probe.2⟩
    else
      let utf16String := List.replicate (probe.1 + 1) 0
      let fetched := requestStringDescriptor usbDevice index utf16String probe.1
      if fetched.ret ≠ kIOReturnSuccess then ⟨some placeholder, probe.2 ++ fetched.transfers⟩
      -- Convert the UTF-16 string descriptor string to UTF-8 and return it
      else ⟨utf8FromUtf16 fetched.string, probe.2 ++ fetched.transfers⟩

/-! ## Device scan loop: main (src/bmpiokit.c lines 215-300) -/

/-- Vendor id matched by the tool. -/
def bmdVID : Nat := 0x1d50

/-- Product id matched by the tool. -/
def bmdPID : Nat := 0x6018

/-- Per-device data the scan loop consumes: whether `openDevice` yields a
usable interface, the ids and string indices the device reports, its
transfer capability, and whether allocations during its string retrieval
succeed. -/
structure DeviceRecord where
  openOk : Bool
  vid : Nat
  pid : Nat
  busAddress : Nat
  manufacturerStringIndex : Nat
  productStringIndex : Nat
  serialNumberStringIndex : Nat
  iface : USBDevice
  callocOk : Bool

/-- One line of output of the scan (`Found %s (%s) w/ serial %s at
address %u`). -/
structure DeviceSummary where
  manufacturer : List Nat
  product : List Nat
  serialNumber : List Nat
  busAddress : Nat
deriving DecidableEq

/-- Embedding of the device loop of `main` (src/bmpiokit.c lines
239-297), with the iterator modelled as the list of remaining matched
devices.  Every early exit in the source is a `break`, not a `continue`:
`openDevice` failure (line 243), a VID/PID mismatch (line 254), and a
`NULL` string from `requestStringFromDevice` (line 290) all end the loop,
returning the summaries gathered so far and processing no further
device. -/
def scanLoop : List DeviceRecord → List DeviceSummary
  | [] => []
  | dev :: rest =>
    if dev.openOk = false then []
    else if dev.vid ≠ bmdVID ∨ dev.pid ≠ bmdPID then []
    else
      let manufacturer := (requestStringFromDevice dev.iface dev.manufacturerStringIndex dev.callocOk).result
      let product := (requestStringFromDevice dev.iface dev.productStringIndex dev.callocOk).result
      let serialNumber := (requestStringFromDevice dev.iface dev.serialNumberStringIndex dev.callocOk).result
      match manufacturer, product, serialNumber with
      | some m, some p, some sn => ⟨m, p, sn, dev.busAddress⟩ :: scanLoop rest
      | _, _, _ => []

/-! ### Helper lemmas about the resolver and fetch -/

/-- Unfolding equation for `requestStringFromDevice`, with the scratch
buffer and the fetch call written out. -/
theorem requestStringFromDevice_eq (dev : USBDevice) (index : Nat) (callocOk : Bool) :
    requestStringFromDevice dev index callocOk =
      if index = 0 then ⟨some placeholder, []⟩
      else if (requestStringLength dev index).1 = 0 then
        ⟨some placeholder, (requestStringLength dev index).2⟩
      else if callocOk = false then ⟨none, (requestStringLength dev index).2⟩
      else if (requestStringDescriptor dev index
          (List.replicate ((requestStringLength dev index).1 + 1) 0)
          (requestStringLength dev index).1).ret ≠ kIOReturnSuccess then
        ⟨some placeholder, (requestStringLength dev index).2 ++
          (requestStringDescriptor dev index
            (List.replicate ((requestStringLength dev index).1 + 1) 0)
            (requestStringLength dev index).1).transfers⟩
      else
        ⟨utf8FromUtf16 (requestStringDescriptor dev index
            (List.replicate ((requestStringLength dev index).1 + 1) 0)
            (requestStringLength dev index).1).string,
          (requestStringLength dev index).2 ++
          (requestStringDescriptor dev index
            (List.replicate ((requestStringLength dev index).1 + 1) 0)
            (requestStringLength dev index).1).transfers⟩ := rfl

/-- The fetch never changes the size of the caller's unit buffer. -/
theorem requestStringDescriptor_string_length (dev : USBDevice) (index : Nat)
    (buf : List Nat) (len : Nat) :
    (requestStringDescriptor dev index buf len).string.length = buf.length := by
  by_cases h : len > 127
  · simp [requestStringDescriptor, h]
  · simp only [requestStringDescriptor, h, if_neg, if_false, ite_false]
    split_ifs <;> simp [memcpyUnits]

/-- Fetching into a zeroed `len + 1`-unit buffer leaves the final unit
zero: `validBytes = min(data[0], len * 2)` never reaches the last unit,
whose bytes therefore keep their `calloc` value 0. -/
theorem requestStringDescriptor_replicate_getLast (dev : USBDevice) (index : Nat) (len : Nat) :
    (requestStringDescriptor dev index (List.replicate (len + 1) 0) len).string.getLast? =
      some 0 := by
  have hrep : (List.replicate (len + 1) (0 : Nat)).getLast? = some 0 := by
    rw [List.replicate_succ']
    exact List.getLast?_concat _
  by_cases h : len > 127
  · simpa [requestStringDescriptor, h] using hrep
  · simp only [requestStringDescriptor, h, if_neg, if_false, ite_false]
    split_ifs with h1 h2
    · exact hrep
    · exact hrep
    · simp only [memcpyUnits, List.length_replicate]
      rw [List.range_succ, List.map_append, List.map_singleton, List.getLast?_concat]
      have hvb : min (dataByte (dev.respond (fetchRequest index len)).2 (len * 2 + 2) 0)
          (len * 2) ≤ 2 * len := by omega
      have hc1 : ¬(2 * len < min (dataByte (dev.respond (fetchRequest index len)).2
          (len * 2 + 2) 0) (len * 2)) := by omega
      have hc2 : ¬(2 * len + 1 < min (dataByte (dev.respond (fetchRequest index len)).2
          (len * 2 + 2) 0) (len * 2)) := by omega
      simp [hc1, hc2, byteOfUnits, Nat.mul_mod_right]

/-! ## Claim theorems for the protocol, resolver and scan -/

/-- C9: resolving the reserved sentinel index 0 returns the placeholder
immediately, with zero control transfers issued, for every device and
every allocation outcome. -/
theorem resolve_index_zero (dev : USBDevice) (callocOk : Bool) :
    requestStringFromDevice dev 0 callocOk = ⟨some placeholder, []⟩ := rfl

/-- C8: a fetch of more than 127 code units is rejected with
`kIOReturnBadArgument` before any control transfer is issued, leaving the
caller's buffer untouched. -/
theorem fetch_oversized_rejected (dev : USBDevice) (index : Nat) (string : List Nat)
    (length : Nat) (h : 127 < length) :
    requestStringDescriptor dev index string length = ⟨kIOReturnBadArgument, string, []⟩ := by
  simp [requestStringDescriptor, h]

/-- Witness for C8 at the claim's boundary input `codeUnitCount = 128`. -/
theorem fetch_oversized_rejected_witness :
    requestStringDescriptor ⟨fun _ => (kIOReturnSuccess, [])⟩ 1 [] 128 =
      ⟨kIOReturnBadArgument, [], []⟩ :=
  fetch_oversized_rejected ⟨fun _ => (kIOReturnSuccess, [])⟩ 1 [] 128 (by decide)

/-- C5: the probe returns 0 whenever the transfer fails or byte 1 of the
response is not the string-descriptor tag; otherwise it returns
`(byte0 - 2) / 2` (computed, as in the source, in 32-bit unsigned
arithmetic), which for a declared length below 2 wraps to `0x7fffffff` —
a count the fetch stage rejects outright, so no usable nonzero count ever
results from such an invalid response. -/
theorem probe_length_semantics (dev : USBDevice) (index : Nat) :
    ((dev.respond (probeRequest index)).1 ≠ kIOReturnSuccess ∨
        dataByte (dev.respond (probeRequest index)).2 2 1 ≠ kUSBStringDesc →
      (requestStringLength dev index).1 = 0) ∧
    ((dev.respond (probeRequest index)).1 = kIOReturnSuccess →
      dataByte (dev.respond (probeRequest index)).2 2 1 = kUSBStringDesc →
      2 ≤ dataByte (dev.respond (probeRequest index)).2 2 0 →
      (requestStringLength dev index).1 =
        (dataByte (dev.respond (probeRequest index)).2 2 0 - 2) / 2) ∧
    ((dev.respond (probeRequest index)).1 = kIOReturnSuccess →
      dataByte (dev.respond (probeRequest index)).2 2 1 = kUSBStringDesc →
      dataByte (dev.respond (probeRequest index)).2 2 0 < 2 →
      (requestStringLength dev index).1 = 0x7fffffff ∧
      ∀ buf : List Nat,
        requestStringDescriptor dev index buf (requestStringLength dev index).1 =
          ⟨kIOReturnBadArgument, buf, []⟩) := by
  have hb0 : dataByte (dev.respond (probeRequest index)).2 2 0 < 256 := by
    simp only [dataByte]
    split
    · exact Nat.mod_lt _ (by norm_num)
    · norm_num
  refine ⟨?_, ?_, ?_⟩
  · intro hfail
    simp only [requestStringLength]
    rw [if_pos hfail]
  · intro h1 h2 h3
    simp only [requestStringLength]
    rw [if_neg (by push_neg; exact ⟨h1, h2⟩)]
    dsimp only
    omega
  · intro h1 h2 h3
    have hlen : (requestStringLength dev index).1 = 0x7fffffff := by
      simp only [requestStringLength]
      rw [if_neg (by push_neg; exact ⟨h1, h2⟩)]
      dsimp only
      omega
    refine ⟨hlen, fun buf => ?_⟩
    rw [hlen]
    simp [requestStringDescriptor]

/-- Witness for C5: a probe response declaring 6 bytes of string
descriptor yields `(6 - 2) / 2 = 2` code units. -/
theorem probe_length_semantics_witness :
    (requestStringLength ⟨fun _ => (kIOReturnSuccess, [6, 3])⟩ 1).1 = 2 := by
  have h := (probe_length_semantics ⟨fun _ => (kIOReturnSuccess, [6, 3])⟩ 1).2.1 rfl
    (by decide) (by decide)
  simpa [dataByte] using h

/-- Device returning, to every request, a success code and a string
descriptor declaring 4 bytes whose single payload unit is `0xdc00` (an
unpaired low surrogate): the probe yields length 1, the fetch succeeds,
and the transcoder then rejects the fetched units. -/
def dcDevice : USBDevice := ⟨fun _ => (kIOReturnSuccess, [4, 3, 0x00, 0xdc])⟩

/-- C2 counterexample: resolution is not total in the claimed sense.  On
`dcDevice` with index 1 and all allocations succeeding, every transfer
succeeds but the fetched unit `0xdc00` makes the transcoder fail, and
`requestStringFromDevice` returns `NULL` (line 212 of src/bmpiokit.c
returns the transcoder result unchanged) — the absence of a string, not
the placeholder. -/
theorem resolver_not_total_cex :
    (requestStringFromDevice dcDevice 1 true).result = none ∧
    (requestStringFromDevice dcDevice 1 true).result ≠ some placeholder := by
  decide

/-- C2 as amended: the resolver returns the placeholder for the sentinel
index 0, for a failed probe, and for a failed fetch; but it returns
`NULL` (no string at all) when the scratch-buffer allocation fails or
when the transcoder rejects the fetched units — `NULL` results arise in
exactly those two situations. -/
theorem resolver_failure_policy (dev : USBDevice) (index : Nat) (callocOk : Bool) :
    (index = 0 → (requestStringFromDevice dev index callocOk).result = some placeholder) ∧
    (index ≠ 0 → (requestStringLength dev index).1 = 0 →
      (requestStringFromDevice dev index callocOk).result = some placeholder) ∧
    (index ≠ 0 → (requestStringLength dev index).1 ≠ 0 → callocOk = false →
      (requestStringFromDevice dev index callocOk).result = none) ∧
    (index ≠ 0 → (requestStringLength dev index).1 ≠ 0 → callocOk = true →
      (requestStringDescriptor dev index
          (List.replicate ((requestStringLength dev index).1 + 1) 0)
          (requestStringLength dev index).1).ret ≠ kIOReturnSuccess →
      (requestStringFromDevice dev index callocOk).result = some placeholder) ∧
    (index ≠ 0 → (requestStringLength dev index).1 ≠ 0 → callocOk = true →
      (requestStringDescriptor dev index
          (List.replicate ((requestStringLength dev index).1 + 1) 0)
          (requestStringLength dev index).1).ret = kIOReturnSuccess →
      (requestStringFromDevice dev index callocOk).result =
        utf8FromUtf16 (requestStringDescriptor dev index
          (List.replicate ((requestStringLength dev index).1 + 1) 0)
          (requestStringLength dev index).1).string) ∧
    ((requestStringFromDevice dev index callocOk).result = none →
      callocOk = false ∨
      countUnitsC (requestStringDescriptor dev index
        (List.replicate ((requestStringLength dev index).1 + 1) 0)
        (requestStringLength dev index).1).string = 0) := by
  by_cases h0 : index = 0
  · rw [requestStringFromDevice_eq]
    simp [h0]
  · by_cases hp : (requestStringLength dev index).1 = 0
    · rw [requestStringFromDevice_eq]
      simp [h0, hp]
    · by_cases hc : callocOk = false
      · rw [requestStringFromDevice_eq]
        simp [h0, hp, hc]
      · have hc' : callocOk = true := by
          cases callocOk
          · exact absurd rfl hc
          · rfl
        by_cases hf : (requestStringDescriptor dev index
            (List.replicate ((requestStringLength dev index).1 + 1) 0)
            (requestStringLength dev index).1).ret ≠ kIOReturnSuccess
        · rw [requestStringFromDevice_eq]
          simp [h0, hp, hc, hf]
        · push_neg at hf
          have hres : (requestStringFromDevice dev index callocOk).result =
              utf8FromUtf16 (requestStringDescriptor dev index
                (List.replicate ((requestStringLength dev index).1 + 1) 0)
                (requestStringLength dev index).1).string := by
            rw [requestStringFromDevice_eq]
            simp [h0, hp, hc', hf]
          refine ⟨fun h => absurd h h0, fun _ h => absurd h hp, fun _ _ h => absurd h hc,
            fun _ _ _ h => absurd hf h, fun _ _ _ _ => hres, ?_⟩
          intro hnone
          right
          rw [hres] at hnone
          simp only [utf8FromUtf16] at hnone
          by_cases hz : countUnitsC (requestStringDescriptor dev index
              (List.replicate ((requestStringLength dev index).1 + 1) 0)
              (requestStringLength dev index).1).string = 0
          · exact hz
          · rw [if_neg hz] at hnone
            simp at hnone

/-- Witness for C2's amended policy at the sentinel-index case. -/
theorem resolver_failure_policy_witness :
    (requestStringFromDevice dcDevice 0 true).result = some placeholder :=
  (resolver_failure_policy dcDevice 0 true).1 rfl

/-- C4 (code bug evidence): a per-device string failure ends the whole
scan.  The first record is a matched device whose string retrieval fails
through the allocation-failure path (`callocOk = false`, reached because
its probe succeeds with length 1); the second record is a matched device
that on its own yields a summary.  With both present the loop produces
nothing: the failure branch executes `break` (src/bmpiokit.c line 290),
even though its comment says to go to the next device, so the second
device is never processed. -/
theorem scan_break_on_failure_bug :
    scanLoop [⟨true, 0x1d50, 0x6018, 1, 1, 1, 1, dcDevice, false⟩,
              ⟨true, 0x1d50, 0x6018, 2, 0, 0, 0, dcDevice, true⟩] = [] ∧
    scanLoop [⟨true, 0x1d50, 0x6018, 2, 0, 0, 0, dcDevice, true⟩] =
      [⟨placeholder, placeholder, placeholder, 2⟩] := by
  decide

/-- C10: every successful resolution with a nonzero index hands the
transcoder a `length + 1`-unit buffer whose final unit is the calloc
zero, so the returned byte sequence is non-empty and NUL-terminated (the
placeholder paths return the 4 bytes of `strdup("---")`, equally
NUL-terminated). -/
theorem resolve_success_nul_terminated (dev : USBDevice) (index : Nat) (callocOk : Bool)
    (hidx : index ≠ 0) (bytes : List Nat)
    (h : (requestStringFromDevice dev index callocOk).result = some bytes) :
    (requestStringDescriptor dev index
        (List.replicate ((requestStringLength dev index).1 + 1) 0)
        (requestStringLength dev index).1).string.length =
      (requestStringLength dev index).1 + 1 ∧
    (requestStringDescriptor dev index
        (List.replicate ((requestStringLength dev index).1 + 1) 0)
        (requestStringLength dev index).1).string.getLast? = some 0 ∧
    bytes ≠ [] ∧ bytes.getLast? = some 0 := by
  have hblen : (requestStringDescriptor dev index
      (List.replicate ((requestStringLength dev index).1 + 1) 0)
      (requestStringLength dev index).1).string.length =
      (requestStringLength dev index).1 + 1 := by
    rw [requestStringDescriptor_string_length, List.length_replicate]
  have hblast := requestStringDescriptor_replicate_getLast dev index
    (requestStringLength dev index).1
  refine ⟨hblen, hblast, ?_⟩
  rw [requestStringFromDevice_eq] at h
  rw [if_neg hidx] at h
  by_cases hp : (requestStringLength dev index).1 = 0
  · rw [if_pos hp] at h
    simp only [Option.some.injEq] at h
    subst h
    decide
  · rw [if_neg hp] at h
    by_cases hc : callocOk = false
    · rw [if_pos hc] at h
      simp at h
    · rw [if_neg hc] at h
      by_cases hf : (requestStringDescriptor dev index
          (List.replicate ((requestStringLength dev index).1 + 1) 0)
          (requestStringLength dev index).1).ret ≠ kIOReturnSuccess
      · rw [if_pos hf] at h
        simp only [Option.some.injEq] at h
        subst h
        decide
      · rw [if_neg hf] at h
        simp only at h
        obtain ⟨n, hn⟩ : ∃ n, countUnits (requestStringDescriptor dev index
            (List.replicate ((requestStringLength dev index).1 + 1) 0)
            (requestStringLength dev index).1).string = some n := by
          cases hcu : countUnits (requestStringDescriptor dev index
              (List.replicate ((requestStringLength dev index).1 + 1) 0)
              (requestStringLength dev index).1).string with
          | none =>
            rw [show utf8FromUtf16 (requestStringDescriptor dev index
                (List.replicate ((requestStringLength dev index).1 + 1) 0)
                (requestStringLength dev index).1).string = none by
              simp [utf8FromUtf16, countUnitsC, hcu]] at h
            exact absurd h (by simp)
          | some n => exact ⟨n, rfl⟩
        have hcc : countUnitsC (requestStringDescriptor dev index
            (List.replicate ((requestStringLength dev index).1 + 1) 0)
            (requestStringLength dev index).1).string = n := by
          simp [countUnitsC, hn]
        have hle := countUnits_length_le hn
        rw [hblen] at hle
        have hn0 : ¬(n = 0) := by omega
        rw [show utf8FromUtf16 (requestStringDescriptor dev index
            (List.replicate ((requestStringLength dev index).1 + 1) 0)
            (requestStringLength dev index).1).string =
            some (utf8EncodeLoop (requestStringDescriptor dev index
              (List.replicate ((requestStringLength dev index).1 + 1) 0)
              (requestStringLength dev index).1).string) by
          simp only [utf8FromUtf16, hcc]
          rw [if_neg hn0]] at h
        simp only [Option.some.injEq] at h
        subst h
        constructor
        · have hel := utf8EncodeLoop_length hn
          intro hnil
          rw [hnil] at hel
          simp at hel
          omega
        · exact utf8EncodeLoop_getLast hn hblast

/-- Device exposing the claim's example: a 5-unit string descriptor
holding the UTF-16LE units of the word Hello. -/
def helloDevice : USBDevice :=
  ⟨fun _ => (kIOReturnSuccess, [12, 3, 72, 0, 101, 0, 108, 0, 108, 0, 111, 0])⟩

/-- Witness for C10: resolving the 5-unit Hello descriptor yields the six
bytes of the word followed by the NUL; they are non-empty and end in
0. -/
theorem resolve_success_nul_terminated_witness :
    ([72, 101, 108, 108, 111, 0] : List Nat) ≠ [] ∧
    ([72, 101, 108, 108, 111, 0] : List Nat).getLast? = some 0 :=
  have h := resolve_success_nul_terminated helloDevice 2 true (by decide)
    [72, 101, 108, 108, 111, 0] (by decide)
  ⟨h.2.2.1, h.2.2.2⟩
